import Mathlib

/-!
# Verification of the hunter list-view widget (`src/listview.rs`)

This file gives a shallow embedding of the `ListView` widget of the hunter
terminal file browser and proves/refutes the frozen specification claims
about it.  The widget's own code (`listview.rs`) is embedded faithfully;
the collaborating modules that are not part of the provided sources
(`files.rs`, `term.rs`, `widget.rs`) are modelled from the specification,
each such definition carries a doc comment saying so.

Machine integers (`usize`, `u16`) are modelled as `Nat`.  Rust subtraction
on unsigned integers panics on underflow (debug semantics); operations that
can panic on reachable input are therefore embedded as `Option`-valued
functions, `none` meaning a panic (out-of-bounds index or underflow).
-/

/-! ## Strings: substring containment and lowercasing

Rust `str::contains` and (ASCII-range) `str::to_lowercase`, modelled on
`List Char`. -/

/-- Does the first list start with the second?  Helper for substring search. -/
def startsWithL : List Char → List Char → Bool
  | _, [] => true
  | [], _ :: _ => false
  | c :: cs, d :: ds => c == d && startsWithL cs ds

/-- Substring containment on character lists: does the first list contain the
second as a contiguous run? -/
def containsL : List Char → List Char → Bool
  | [], needle => needle.isEmpty
  | c :: cs, needle => startsWithL (c :: cs) needle || containsL cs needle

/-- Rust `haystack.contains(needle)` on `String`. -/
def strContains (hay needle : String) : Bool :=
  containsL hay.toList needle.toList

/-- ASCII lowercasing of one character.  Modelled from the spec: `find` does a
case-insensitive match; Rust `to_lowercase` restricted to the ASCII range. -/
def charLower (c : Char) : Char :=
  if 65 ≤ c.toNat ∧ c.toNat ≤ 90 then Char.ofNat (c.toNat + 32) else c

/-- ASCII-range lowercasing of a string (Rust `str::to_lowercase`). -/
def lowerString (s : String) : String :=
  String.mk (s.toList.map charLower)

/-- Lexicographic order on character lists, used as the name sort key. -/
def leL : List Char → List Char → Bool
  | [], _ => true
  | _ :: _, [] => false
  | c :: cs, d :: ds => c.toNat < d.toNat || (c == d && leL cs ds)

/-- Total order on names used by the name sort criterion. -/
def nameLe (a b : String) : Bool := leL a.toList b.toList

/-! ## Data model

`File` and `Files` live in `files.rs`, which is not among the provided
sources; they are modelled from the spec (§3 Data model): an item is opaque
except for the attributes needed to render a line, and the collection is an
ordered sequence with sort criteria (key, direction, directories-first) and
an optional substring filter. -/

/-- Sort criteria key (spec §3: "an enumerated key (e.g. name, size,
modification time)").  `listview.rs` references `crate::files::SortBy::MTime`. -/
inductive SortBy where
  | name
  | size
  | mtime
deriving DecidableEq, Repr

/-- Modelled from the spec: one item of the content collection, with exactly
the attributes the widget reads — display name, size/unit, tag flag,
multi-selection flag, color class, optional link target, modification time,
directory flag.  Items are compared for identity by value equality. -/
structure FileM where
  name : String
  size : Nat
  unit : String
  mtime : Nat
  isDir : Bool
  selected : Bool
  tagged : Bool
  target : Option String
  color : Option Nat
deriving DecidableEq, Repr

/-- Modelled from the spec: the content collection (`crate::files::Files`) —
an ordered sequence of items plus sort criteria (key, direction,
directories-first), an optional substring filter, and a dirty flag consumed
by the widget's refresh hook. -/
structure Files where
  files : List FileM
  sort : SortBy
  dirs_first : Bool
  reverse : Bool
  filter : Option String
  dirty : Bool
deriving DecidableEq, Repr

/-- Modelled from the spec: the items passing the active filter ("when
present, only items whose name contains it are rendered"). -/
def Files.filteredFiles (c : Files) : List FileM :=
  match c.filter with
  | some f => c.files.filter (fun file => strContains file.name f)
  | none => c.files

/-- Modelled from the spec: `Files::len` — "buffer length tracks the filtered
count, not the raw content length" (spec §3), so the length the widget
consumes is the filtered length. -/
def Files.lenF (c : Files) : Nat := c.filteredFiles.length

/-- Modelled from the spec: the comparator for one sort key. -/
def keyLe (sb : SortBy) (a b : FileM) : Bool :=
  match sb with
  | .name => nameLe a.name b.name
  | .size => a.size ≤ b.size
  | .mtime => a.mtime ≤ b.mtime

/-- Modelled from the spec: the full comparator — directories first when the
flag is set, then the key in the chosen direction. -/
def fileLe (sb : SortBy) (df rev : Bool) (a b : FileM) : Bool :=
  if df ∧ a.isDir ≠ b.isDir then a.isDir
  else if rev then keyLe sb b a else keyLe sb a b

/-- Stable insertion into a sorted list (helper for the sort). -/
def insertLe (le : FileM → FileM → Bool) (x : FileM) : List FileM → List FileM
  | [] => [x]
  | y :: ys => if le x y then x :: y :: ys else y :: insertLe le x ys

/-- Stable insertion sort with a boolean comparator. -/
def sortLe (le : FileM → FileM → Bool) : List FileM → List FileM
  | [] => []
  | x :: xs => insertLe le x (sortLe le xs)

/-- Modelled from the spec: `Files::sort()` — re-sort the collection by the
current criteria. -/
def Files.applySort (c : Files) : Files :=
  { c with files := sortLe (fileLe c.sort c.dirs_first c.reverse) c.files }

/-- `iter().position(...)` (Rust): index of the first element satisfying the
predicate. -/
def findIndex (p : FileM → Bool) : List FileM → Option Nat
  | [] => none
  | x :: xs => if p x then some 0 else (findIndex p xs).map (· + 1)

/-- `iter().find(...)` (Rust): the first element satisfying the predicate. -/
def findItem (p : FileM → Bool) : List FileM → Option FileM
  | [] => none
  | x :: xs => if p x then some x else findItem p xs

/-- Widget geometry from the shared `WidgetCore` (`widget.rs` is not among the
provided sources): `get_coordinates().xsize()/.ysize()`. -/
structure Geometry where
  xsize : Nat
  ysize : Nat
deriving DecidableEq, Repr

/-- The `ListView<Files>` state: `content`, cached line count `lines`,
`selection`, `offset`, render `buffer`, seeking flag, plus the widget-core
dirty flag and coordinates (the parts of `WidgetCore` the widget reads). -/
structure LState where
  content : Files
  lines : Nat
  selection : Nat
  offset : Nat
  buffer : List String
  seeking : Bool
  dirty : Bool
  geom : Geometry
deriving DecidableEq, Repr

/-- `ListView::new`: zeroed selection/offset/lines, empty buffer, seeking off. -/
def initView (c : Files) (g : Geometry) : LState :=
  { content := c, lines := 0, selection := 0, offset := 0, buffer := [],
    seeking := false, dirty := false, geom := g }

/-! ## Viewport controller (`move_up`, `move_down`, `set_selection`) -/

/-- `ListView::move_up` (listview.rs:101).  `none` models the usize-underflow
panic of `self.selection - self.offset` when `offset > selection` (an
unreachable-by-invariant state). -/
def move_up (st : LState) : Option LState :=
  if st.selection = 0 then
    some st
  else if st.offset > st.selection then
    none
  else
    let st := if st.selection - st.offset = 0 then { st with offset := st.offset - 1 } else st
    some { st with selection := st.selection - 1, seeking := false }

/-- `ListView::move_down` (listview.rs:113).  `none` models the
usize-underflow panic of `self.selection + 1 - self.offset` when
`offset > selection + 1` (short-circuit: only evaluated when
`selection + 1 >= y_size`). -/
def move_down (st : LState) : Option LState :=
  let y_size := st.geom.ysize
  if st.lines = 0 ∨ st.selection = st.lines - 1 then
    some st
  else if st.selection + 1 ≥ y_size ∧ st.offset > st.selection + 1 then
    none
  else
    let inc := st.selection + 1 ≥ y_size ∧ st.selection + 1 - st.offset ≥ y_size
    some { st with offset := if inc then st.offset + 1 else st.offset,
                   selection := st.selection + 1,
                   seeking := false }

/-- The offset loop of `ListView::set_selection` (listview.rs:137), verbatim:
starting from `offset`, increment while `position + 2 >= ysize + offset`. -/
def scroll_loop (position ysize offset : Nat) : Nat :=
  if h : position + 2 ≥ ysize + offset then scroll_loop position ysize (offset + 1)
  else offset
termination_by position + 3 - offset
decreasing_by omega

/-- Closed form of `scroll_loop position ysize 0`, used in `set_selection` so
that the embedding is executable by the kernel; proved equal to the loop in
`scroll_offset_eq_loop`. -/
def scroll_offset (position ysize : Nat) : Nat := position + 3 - ysize

/-- `ListView::set_selection` (listview.rs:133): recompute the offset by the
unit-increment loop, then set the selection. -/
def set_selection (position : Nat) (st : LState) : LState :=
  { st with offset := scroll_offset position st.geom.ysize, selection := position }

theorem scroll_loop_eq (position ysize offset : Nat) :
    scroll_loop position ysize offset = max offset (position + 3 - ysize) := by
  unfold scroll_loop
  split
  · rw [scroll_loop_eq]
    omega
  · omega
termination_by position + 3 - offset
decreasing_by omega

/-- The closed form used by `set_selection` is the source's loop. -/
theorem scroll_offset_eq_loop (position ysize : Nat) :
    scroll_offset position ysize = scroll_loop position ysize 0 := by
  rw [scroll_loop_eq, scroll_offset]
  omega

example : scroll_offset 4 3 = 4 := by decide
example : scroll_offset 0 2 = 1 := by decide
example : scroll_offset 0 10 = 0 := by decide

/-! ## Render cache (`render_line`, `render`, `refresh`) -/

/-- Terminal escape constants.  `term.rs` is not among the provided sources;
modelled from the spec (§1: the widget "only emits opaque formatted strings")
as fixed escape strings. -/
def color_red : String := "\x1b[31m"

/-- Opaque yellow-color escape (see `color_red`). -/
def color_yellow : String := "\x1b[33m"

/-- Opaque highlight-color escape (see `color_red`). -/
def highlight_color : String := "\x1b[36m"

/-- Opaque normal-color escape (see `color_red`). -/
def normal_color : String := "\x1b[0m"

/-- Opaque cursor-save directive (see `color_red`). -/
def cursor_save : String := "\x1b[s"

/-- Opaque cursor-restore directive (see `color_red`). -/
def cursor_restore : String := "\x1b[u"

/-- `termion::cursor::Right(n)` positioning directive, opaque. -/
def cursor_right (n : Nat) : String := "\x1b[" ++ toString n ++ "C"

/-- `term::goto_xy` positioning directive, opaque. -/
def goto_xy (x y : Nat) : String := "\x1b[" ++ toString y ++ ";" ++ toString x ++ "H"

/-- `term::invert` escape, opaque. -/
def invert_str : String := "\x1b[7m"

/-- `term::reset` escape, opaque. -/
def reset_str : String := "\x1b[m"

/-- `term::from_lscolor`, opaque color escape per color class (see `color_red`). -/
def from_lscolor (c : Nat) : String := "\x1b[38;5;" ++ toString c ++ "m"

/-- `term::sized_string(name, xsize)`: modelled from the spec — "name
truncation ... to the available width"; character-wise truncation (the
variable-width CJK refinement is a terminal-surface detail, spec §1). -/
def sized_string (s : String) (xsize : Nat) : String :=
  String.mk (s.toList.take xsize)

/-- Display width of a string; modelled from the spec as the character count
(CJK double-width is a terminal-surface detail, spec §1). -/
def width_cjk (s : String) : Nat := s.toList.length

/-- Rust `format!("{:padding$}", s)`: left-aligned padding with spaces to the
given width. -/
def pad_to (w : Nat) (s : String) : String :=
  s ++ String.mk (List.replicate (w - s.toList.length) ' ')

/-- `ListView<Files>::render_line` (listview.rs:346): one formatted line per
item — tag marker, selection gap and color, truncated/padded name, cursor
repositioning, optional link indicator, right-aligned size and unit.
Caveat: the source's `u16` subtractions (`size_pos` at listview.rs:370-372,
`padding - tag_len` at listview.rs:375) can underflow — a debug-build panic
for very narrow widths — and are modelled here as truncated `Nat`
subtraction, so those width-arithmetic panics are outside the modelled
scope; no claim below asserts panic-freedom of this formatting arithmetic. -/
def render_line (xsize : Nat) (file : FileM) : String :=
  let size := file.size
  let unit := file.unit
  let tag := if file.tagged then color_red ++ "*" else ""
  let tag_len := if file.tagged then 1 else 0
  let selection_gap := "  "
  let name := if file.selected then selection_gap ++ file.name else file.name
  let selection_color := if file.selected then color_yellow else ""
  let link_indicator :=
    if file.target.isSome then color_yellow ++ "--> " ++ highlight_color else ""
  let link_indicator_len := if file.target.isSome then 4 else 0
  let sized := sized_string name xsize
  let size_pos := xsize - ((toString size).toList.length + unit.toList.length + link_indicator_len)
  let padding := sized.toList.length - width_cjk sized
  let padding := xsize - padding
  let padding := padding - tag_len
  cursor_save
    ++ (match file.color with
        | some color =>
            tag ++ from_lscolor color ++ selection_color ++ pad_to padding sized ++ normal_color
        | none =>
            tag ++ normal_color ++ selection_color ++ pad_to padding sized ++ normal_color)
    ++ cursor_restore
    ++ cursor_right size_pos
    ++ link_indicator
    ++ highlight_color
    ++ toString size
    ++ unit

/-- `ListView<Files>::render` (listview.rs:405): one line per item passing the
active filter, in content order. -/
def renderF (xsize : Nat) (c : Files) : List String :=
  match c.filter with
  | some f => (c.files.filter (fun file => strContains file.name f)).map (render_line xsize)
  | none => c.files.map (render_line xsize)

/-- `Listable::on_refresh` for `ListView<Files>` (listview.rs:30): give the
content a chance to materialize metadata (`meta_upto`, no effect on the
modelled fields), then propagate the content dirty flag into the widget
core. -/
def on_refresh (st : LState) : LState :=
  if st.content.dirty then
    { st with dirty := true, content := { st.content with dirty := false } }
  else st

/-- `Widget::refresh` for `ListView<T>` (listview.rs:430): run the refresh
hook, re-derive `lines`, decrement an out-of-range nonzero selection by one,
and rebuild the buffer when the core is dirty or the buffer length disagrees
with the (filtered) content length, clearing the dirty flag. -/
def refresh (st : LState) : LState :=
  let st := on_refresh st
  let st := { st with lines := st.content.lenF }
  let st :=
    if st.selection ≥ st.lines ∧ st.selection ≠ 0 then
      { st with selection := st.selection - 1 }
    else st
  if st.dirty ∨ st.buffer.length ≠ st.content.lenF then
    { st with buffer := renderF st.geom.xsize st.content, dirty := false }
  else st

/-! ## Selection identity and sort/filter controller -/

/-- `ListView<Files>::clone_selected_file` (listview.rs:162): the item at the
selection index; `none` models the index-out-of-bounds panic. -/
def clone_selected_file (st : LState) : Option FileM :=
  st.content.files.get? st.selection

/-- `ListView<Files>::select_file` (listview.rs:199): locate the item by value
equality (`position`), falling back to index 0, and `set_selection` there. -/
def select_file (file : FileM) (st : LState) : LState :=
  set_selection ((findIndex (fun item => item == file) st.content.files).getD 0) st

/-- `ListView<Files>::select_next_mtime` (listview.rs:227): remember the
selected item, temporarily sort by mtime with directories-first off,
re-locate it, then either jump to time-order index 0 (not seeking, or at the
boundary) or step once down; remember the new item, restore the original
criteria, re-locate, set seeking, refresh. -/
def select_next_mtime (st : LState) : Option LState :=
  match clone_selected_file st with
  | none => none
  | some file =>
    let dir_settings := st.content.dirs_first
    let sort_settings := st.content.sort
    let c := Files.applySort ({ st.content with dirs_first := false, sort := SortBy.mtime })
    let st := { st with content := c }
    let st := select_file file st
    let step : Option LState :=
      if st.seeking = false ∨ st.selection + 1 = st.content.lenF then
        some { st with selection := 0, offset := 0 }
      else
        move_down st
    match step with
    | none => none
    | some st =>
      match clone_selected_file st with
      | none => none
      | some file2 =>
        let c2 := Files.applySort ({ st.content with dirs_first := dir_settings, sort := sort_settings })
        let st := { st with content := c2 }
        let st := select_file file2 st
        let st := { st with seeking := true }
        some (refresh st)

/-- `ListView<Files>::select_prev_mtime` (listview.rs:255): as
`select_next_mtime` but stepping up, jumping to the last time-order index
when not seeking or at index 0.  `none` on the jump branch models the
usize-underflow panic of `self.content.len() - 1` on an empty (filtered)
collection. -/
def select_prev_mtime (st : LState) : Option LState :=
  match clone_selected_file st with
  | none => none
  | some file =>
    let dir_settings := st.content.dirs_first
    let sort_settings := st.content.sort
    let c := Files.applySort ({ st.content with dirs_first := false, sort := SortBy.mtime })
    let st := { st with content := c }
    let st := select_file file st
    let step : Option LState :=
      if st.seeking = false ∨ st.selection = 0 then
        if st.content.lenF = 0 then none
        else some (set_selection (st.content.lenF - 1) st)
      else
        move_up st
    match step with
    | none => none
    | some st =>
      match clone_selected_file st with
      | none => none
      | some file2 =>
        let c2 := Files.applySort ({ st.content with dirs_first := dir_settings, sort := sort_settings })
        let st := { st with content := c2 }
        let st := select_file file2 st
        let st := { st with seeking := true }
        some (refresh st)

/-- `FileM` toggle of the multi-selection flag (`File::toggle_selection`,
modelled from the spec). -/
def toggleSelection (f : FileM) : FileM := { f with selected := !f.selected }

/-- `FileM` toggle of the tag flag (`File::toggle_tag`, modelled from the
spec; the tag-persistence I/O error path is out of scope). -/
def toggleTagged (f : FileM) : FileM := { f with tagged := !f.tagged }

/-- `ListView<Files>::multi_select_file` (listview.rs:300): toggle the
selected item's multi-select flag, re-render that one line into the buffer
slot at the selection index, then `move_down`.  `none` models the panics of
`selected_file_mut` (item index out of bounds) and of
`self.buffer[selection]` (buffer index out of bounds). -/
def multi_select_file (st : LState) : Option LState :=
  match st.content.files.get? st.selection with
  | none => none
  | some f =>
    let f2 := toggleSelection f
    let c := { st.content with files := st.content.files.set st.selection f2 }
    let line := render_line st.geom.xsize f2
    if st.selection < st.buffer.length then
      move_down { st with content := c, buffer := st.buffer.set st.selection line }
    else none

/-- `ListView<Files>::toggle_tag` (listview.rs:310): toggle the selected
item's tag flag, patch the one buffer slot, then `move_down`; panics modelled
as in `multi_select_file`. -/
def toggle_tag (st : LState) : Option LState :=
  match st.content.files.get? st.selection with
  | none => none
  | some f =>
    let f2 := toggleTagged f
    let c := { st.content with files := st.content.files.set st.selection f2 }
    let line := render_line st.geom.xsize f2
    if st.selection < st.buffer.length then
      move_down { st with content := c, buffer := st.buffer.set st.selection line }
    else none

/-- `ListView<Files>::find_file` (listview.rs:321): with the minibuffer result
(`none` = cancelled), find the first item whose lowercased name contains the
query, and select it via `select_file`; `none` is the early-returned
not-found/cancelled condition (state unchanged by the caller, no panic). -/
def find_file (input : Option String) (st : LState) : Option LState :=
  match input with
  | none => none
  | some name =>
    match findItem (fun file => strContains (lowerString file.name) name) st.content.files with
    | none => none
    | some file => some (select_file file st)

/-- `ListView<Files>::filter` (listview.rs:335): set the filter from the
minibuffer result (`none` = cancelled clears it), then clamp the selection to
the new (filtered) length when it strictly exceeds it. -/
def filterOp (input : Option String) (st : LState) : LState :=
  let st := { st with content := { st.content with filter := input } }
  if st.selection > st.content.lenF then set_selection st.content.lenF st
  else st

/-! ## Key dispatcher: reachable states

One constructor per dispatched action that the claims quantify over; the
minibuffer results of `find`/`filter` are external inputs carried by the
constructor (spec §5).  `refreshOp` is the refresh cycle the dispatcher runs
after handled actions. -/

/-- One dispatched list-view operation. -/
inductive Op where
  | refreshOp
  | moveUp
  | moveDown
  | multiSelect
  | toggleTagOp
  | nextMtime
  | prevMtime
  | filterKey (input : Option String)
  | findKey (input : Option String)
deriving DecidableEq, Repr

/-- Apply one operation; `none` means the operation panicked.  A failed
`find` is discarded by the dispatcher (`self.find_file().ok()`), leaving the
state unchanged. -/
def applyOp : Op → LState → Option LState
  | .refreshOp, st => some (refresh st)
  | .moveUp, st => move_up st
  | .moveDown, st => move_down st
  | .multiSelect, st => multi_select_file st
  | .toggleTagOp, st => toggle_tag st
  | .nextMtime, st => select_next_mtime st
  | .prevMtime, st => select_prev_mtime st
  | .filterKey input, st => some (filterOp input st)
  | .findKey input, st =>
      match find_file input st with
      | none => some st
      | some st2 => some st2

/-- Run a sequence of operations; `none` as soon as one panics. -/
def runOps : List Op → LState → Option LState
  | [], st => some st
  | op :: ops, st =>
    match applyOp op st with
    | none => none
    | some st2 => runOps ops st2

/-! ## General lemmas about the helper functions -/

theorem findIndex_some {p : FileM → Bool} {l : List FileM} {i : Nat}
    (h : findIndex p l = some i) :
    ∃ x, l.get? i = some x ∧ p x = true := by
  induction l generalizing i with
  | nil => simp [findIndex] at h
  | cons a l ih =>
    by_cases hp : p a
    · simp [findIndex, hp] at h
      exact h ▸ ⟨a, rfl, hp⟩
    · simp [findIndex, hp] at h
      obtain ⟨j, hj, rfl⟩ := h
      obtain ⟨x, hx, hpx⟩ := ih hj
      exact ⟨x, by simpa using hx, hpx⟩

theorem findIndex_nodup {l : List FileM} {i : Nat} {x : FileM}
    (hnd : l.Nodup) (hget : l.get? i = some x) :
    findIndex (fun a => a == x) l = some i := by
  induction l generalizing i with
  | nil => simp at hget
  | cons a l ih =>
    rcases i with _ | j
    · rw [List.get?_cons_zero] at hget
      obtain rfl : a = x := by injection hget
      simp [findIndex]
    · rw [List.get?_cons_succ] at hget
      have ha : (a == x) = false := by
        have hmem : x ∈ l := List.get?_mem hget
        have : a ∉ l := (List.nodup_cons.mp hnd).1
        simp only [beq_eq_false_iff_ne, ne_eq]
        rintro rfl
        exact this hmem
      simp [findIndex, ha, ih (List.nodup_cons.mp hnd).2 hget]

theorem findIndex_isSome {l : List FileM} {x : FileM} (h : x ∈ l) :
    ∃ i, findIndex (fun a => a == x) l = some i ∧ i < l.length := by
  induction l with
  | nil => simp at h
  | cons a l ih =>
    by_cases hax : (a == x) = true
    · exact ⟨0, by simp [findIndex, hax], by simp⟩
    · have hx : x ∈ l := by
        rcases List.mem_cons.mp h with rfl | hm
        · simp at hax
        · exact hm
      obtain ⟨i, hi, hlen⟩ := ih hx
      exact ⟨i + 1, by simp [findIndex, hax, hi], by simpa using hlen⟩

theorem findItem_eq_none {p : FileM → Bool} {l : List FileM} :
    findItem p l = none ↔ ∀ x ∈ l, p x = false := by
  induction l with
  | nil => simp [findItem]
  | cons a l ih =>
    by_cases hp : p a
    · simp [findItem, hp]
    · simp only [findItem, if_neg hp, ih, List.mem_cons]
      constructor
      · rintro h x (rfl | hm)
        · simpa using hp
        · exact h x hm
      · intro h x hm
        exact h x (Or.inr hm)

theorem findItem_some {p : FileM → Bool} {l : List FileM} {f : FileM}
    (h : findItem p l = some f) : p f = true ∧ f ∈ l := by
  induction l with
  | nil => simp [findItem] at h
  | cons a l ih =>
    by_cases hp : p a
    · simp [findItem, hp] at h
      exact h ▸ ⟨hp, by simp⟩
    · simp [findItem, hp] at h
      obtain ⟨hf, hm⟩ := ih h
      exact ⟨hf, by simp [hm]⟩

theorem findItem_first {p : FileM → Bool} {l : List FileM} {f : FileM}
    (h : findItem p l = some f) :
    findIndex (fun a => a == f) l = findIndex p l := by
  induction l with
  | nil => simp [findItem] at h
  | cons a l ih =>
    by_cases hp : p a
    · simp [findItem, hp] at h
      subst h
      simp [findIndex, hp]
    · simp [findItem, hp] at h
      have haf : (a == f) = false := by
        simp only [beq_eq_false_iff_ne, ne_eq]
        rintro rfl
        exact hp (findItem_some h).1
      simp [findIndex, haf, hp, ih h]

theorem insertLe_perm (le : FileM → FileM → Bool) (x : FileM) (l : List FileM) :
    (insertLe le x l).Perm (x :: l) := by
  induction l with
  | nil => simp [insertLe]
  | cons y ys ih =>
    by_cases hle : le x y
    · simp [insertLe, hle]
    · simp only [insertLe, if_neg hle]
      exact (ih.cons y).trans (List.Perm.swap x y ys)

theorem sortLe_perm (le : FileM → FileM → Bool) (l : List FileM) :
    (sortLe le l).Perm l := by
  induction l with
  | nil => simp [sortLe]
  | cons x xs ih =>
    exact (insertLe_perm le x (sortLe le xs)).trans (ih.cons x)

theorem sortLe_length (le : FileM → FileM → Bool) (l : List FileM) :
    (sortLe le l).length = l.length :=
  (sortLe_perm le l).length_eq

theorem sortLe_mem {le : FileM → FileM → Bool} {l : List FileM} {x : FileM} :
    x ∈ sortLe le l ↔ x ∈ l :=
  (sortLe_perm le l).mem_iff

theorem sortLe_nodup {le : FileM → FileM → Bool} {l : List FileM}
    (h : l.Nodup) : (sortLe le l).Nodup :=
  ((sortLe_perm le l).nodup_iff).mpr h

/-- `select_file` on a duplicate-free collection selects exactly the index
holding the item. -/
theorem select_file_eq {st : LState} {x : FileM} {i : Nat}
    (hnd : st.content.files.Nodup) (hget : st.content.files.get? i = some x) :
    select_file x st = set_selection i st := by
  unfold select_file
  rw [findIndex_nodup hnd hget]
  rfl

/-! ## The two maintained invariants (spec §8) -/

/-- Spec §8: `0 <= selection < length` whenever `length > 0`, and
`selection == 0` when `length == 0` (length = filtered length). -/
def selInv (st : LState) : Prop :=
  (0 < st.content.lenF → st.selection < st.content.lenF) ∧
  (st.content.lenF = 0 → st.selection = 0)

/-- Spec §8: `offset <= selection < offset + window_size`. -/
def viewInv (st : LState) : Prop :=
  st.offset ≤ st.selection ∧ st.selection < st.offset + st.geom.ysize

/-! ## Shared concrete fixtures for witnesses and counterexamples -/

/-- A plain file with the given name and modification time. -/
def mkFile (name : String) (mtime : Nat) : FileM :=
  { name := name, size := 0, unit := "", mtime := mtime, isDir := false,
    selected := false, tagged := false, target := none, color := none }

/-- Three files, names sorted, mtimes in a different order. -/
def fsABC : Files :=
  { files := [mkFile "aaa" 30, mkFile "bbb" 10, mkFile "ccc" 20],
    sort := SortBy.name, dirs_first := false, reverse := false,
    filter := none, dirty := false }

/-- Five files, for the window-scrolling scenarios. -/
def fs5 : Files :=
  { files := [mkFile "f0" 0, mkFile "f1" 1, mkFile "f2" 2, mkFile "f3" 3, mkFile "f4" 4],
    sort := SortBy.name, dirs_first := false, reverse := false,
    filter := none, dirty := false }

/-- The spec's find example collection. -/
def fsRep : Files :=
  { files := [mkFile "a.txt" 0, mkFile "report.csv" 1, mkFile "z.bin" 2],
    sort := SortBy.name, dirs_first := false, reverse := false,
    filter := none, dirty := false }

/-- An empty collection (the spec's `length == 0` states). -/
def fsEmpty : Files :=
  { files := [], sort := SortBy.name, dirs_first := false, reverse := false,
    filter := none, dirty := false }

/-! ## Characterization lemmas for the state operations -/

theorem lenF_congr {c c2 : Files} (hf : c.files = c2.files)
    (hfil : c.filter = c2.filter) : c.lenF = c2.lenF := by
  unfold Files.lenF Files.filteredFiles
  rw [hf, hfil]

theorem lenF_none {c : Files} (h : c.filter = none) : c.lenF = c.files.length := by
  unfold Files.lenF Files.filteredFiles
  rw [h]

theorem renderF_congr {x : Nat} {c c2 : Files} (hf : c.files = c2.files)
    (hfil : c.filter = c2.filter) : renderF x c = renderF x c2 := by
  unfold renderF
  rw [hf, hfil]

/-- Field-level description of `refresh`. -/
theorem refresh_spec (st : LState) :
    (refresh st).selection
      = (if st.content.lenF ≤ st.selection ∧ st.selection ≠ 0
         then st.selection - 1 else st.selection) ∧
    (refresh st).lines = st.content.lenF ∧
    (refresh st).offset = st.offset ∧
    (refresh st).content.files = st.content.files ∧
    (refresh st).content.filter = st.content.filter ∧
    (refresh st).content.sort = st.content.sort ∧
    (refresh st).content.dirs_first = st.content.dirs_first ∧
    (refresh st).content.reverse = st.content.reverse ∧
    (refresh st).content.dirty = false ∧
    (refresh st).seeking = st.seeking ∧
    (refresh st).geom = st.geom ∧
    (refresh st).dirty = false ∧
    (refresh st).buffer
      = (if (st.dirty ∨ st.content.dirty) ∨ st.buffer.length ≠ st.content.lenF
         then renderF st.geom.xsize st.content else st.buffer) := by
  have hcongr : ∀ b : Bool, Files.lenF { st.content with dirty := b } = st.content.lenF :=
    fun b => lenF_congr rfl rfl
  have hrcongr : ∀ b : Bool,
      renderF st.geom.xsize { st.content with dirty := b } = renderF st.geom.xsize st.content :=
    fun b => renderF_congr rfl rfl
  unfold refresh on_refresh
  by_cases hd : st.content.dirty
  · simp only [hd, if_true, hcongr, hrcongr]
    by_cases hclamp : st.content.lenF ≤ st.selection ∧ st.selection ≠ 0
    · have : st.selection ≥ st.content.lenF ∧ st.selection ≠ 0 := ⟨hclamp.1, hclamp.2⟩
      simp only [this, if_pos, if_true, hclamp, ge_iff_le, and_true, ne_eq]
      simp [hclamp.1, hclamp.2, hcongr, hrcongr, hd]
    · have h2 : ¬(st.selection ≥ st.content.lenF ∧ st.selection ≠ 0) := hclamp
      simp [if_neg h2, hcongr, hrcongr, hd, hclamp]
  · simp only [hd, if_false, Bool.false_eq_true]
    by_cases hclamp : st.content.lenF ≤ st.selection ∧ st.selection ≠ 0
    · have h2 : st.selection ≥ st.content.lenF ∧ st.selection ≠ 0 := ⟨hclamp.1, hclamp.2⟩
      by_cases hb : st.dirty ∨ st.buffer.length ≠ st.content.lenF
      · simp [h2, hclamp, hb, hd]
      · simp [h2, hclamp, hb, hd]
        simp_all
    · have h2 : ¬(st.selection ≥ st.content.lenF ∧ st.selection ≠ 0) := hclamp
      by_cases hb : st.dirty ∨ st.buffer.length ≠ st.content.lenF
      · simp [h2, hclamp, hb, hd]
      · simp [h2, hclamp, hb, hd]
        simp_all

/-- Field-level description of a non-panicking `move_down`. -/
theorem move_down_spec (st : LState) (h : st.offset ≤ st.selection + 1) :
    ∃ st2, move_down st = some st2 ∧
      st2.buffer = st.buffer ∧
      st2.content = st.content ∧
      st2.lines = st.lines ∧
      st2.geom = st.geom ∧
      st2.selection = (if st.lines = 0 ∨ st.selection = st.lines - 1
                       then st.selection else st.selection + 1) ∧
      st2.seeking = (if st.lines = 0 ∨ st.selection = st.lines - 1
                     then st.seeking else false) ∧
      st2.offset ≤ st.offset + 1 ∧ st.offset ≤ st2.offset := by
  by_cases h0 : st.lines = 0 ∨ st.selection = st.lines - 1
  · refine ⟨st, ?_, rfl, rfl, rfl, rfl, ?_, ?_, by omega, by omega⟩
    · unfold move_down
      rw [if_pos h0]
    · rw [if_pos h0]
    · rw [if_pos h0]
  · have h1 : ¬(st.selection + 1 ≥ st.geom.ysize ∧ st.offset > st.selection + 1) := by
      omega
    refine ⟨{ st with offset := if st.selection + 1 ≥ st.geom.ysize ∧ st.selection + 1 - st.offset ≥ st.geom.ysize then st.offset + 1 else st.offset, selection := st.selection + 1, seeking := false }, ?_, rfl, rfl, rfl, rfl, ?_, ?_, ?_, ?_⟩
    · unfold move_down
      rw [if_neg h0, if_neg h1]
    · rw [if_neg h0]
    · rw [if_neg h0]
    · dsimp only
      split <;> omega
    · dsimp only
      split <;> omega

/-- Field-level description of a non-panicking `move_up`. -/
theorem move_up_spec (st : LState) (h : st.offset ≤ st.selection) :
    ∃ st2, move_up st = some st2 ∧
      st2.buffer = st.buffer ∧
      st2.content = st.content ∧
      st2.lines = st.lines ∧
      st2.geom = st.geom ∧
      st2.selection = st.selection - 1 ∧
      st2.seeking = (if st.selection = 0 then st.seeking else false) ∧
      st2.offset ≤ st.offset := by
  by_cases h0 : st.selection = 0
  · refine ⟨st, ?_, rfl, rfl, rfl, rfl, by omega, ?_, by omega⟩
    · unfold move_up
      rw [if_pos h0]
    · rw [if_pos h0]
  · have h1 : ¬ st.offset > st.selection := by omega
    by_cases h2 : st.selection - st.offset = 0
    · refine ⟨{ st with offset := st.offset - 1, selection := st.selection - 1, seeking := false }, ?_, rfl, rfl, rfl, rfl, rfl, ?_, by show st.offset - 1 ≤ st.offset; omega⟩
      · unfold move_up
        rw [if_neg h0, if_neg h1, if_pos h2]
      · rw [if_neg h0]
    · refine ⟨{ st with selection := st.selection - 1, seeking := false }, ?_, rfl, rfl, rfl, rfl, rfl, ?_, by show st.offset ≤ st.offset; omega⟩
      · unfold move_up
        rw [if_neg h0, if_neg h1, if_neg h2]
      · rw [if_neg h0]

/-! ## Claim C10 -/

/-- C10: `refresh()` never modifies the offset: for every state, the offset
after `refresh` equals the offset before, even when `refresh` clamps the
selection because the collection shrank — only the selection, the cached
line count, the buffer and the dirty flags may change (items, filter, sort
criteria, seeking flag and geometry are also untouched). -/
theorem C10_refresh_preserves_offset (st : LState) :
    (refresh st).offset = st.offset ∧
    (refresh st).content.files = st.content.files ∧
    (refresh st).content.filter = st.content.filter ∧
    (refresh st).content.sort = st.content.sort ∧
    (refresh st).content.dirs_first = st.content.dirs_first ∧
    (refresh st).content.reverse = st.content.reverse ∧
    (refresh st).seeking = st.seeking ∧
    (refresh st).geom = st.geom := by
  obtain ⟨-, -, h3, h4, h5, h6, h7, h8, -, h10, h11, -, -⟩ := refresh_spec st
  exact ⟨h3, h4, h5, h6, h7, h8, h10, h11⟩

/-! ## Claim C4 -/

/-- C4 (amended): `set_selection(position)` recomputes the offset as the
minimal value such that `position + 2 < window_size + offset`; concretely,
with window size 3, `set_selection(4)` yields offset 4 (not 2). -/
theorem C4_set_selection_minimal_offset (position : Nat) (st : LState) :
    (set_selection position st).selection = position ∧
    position + 2 < st.geom.ysize + (set_selection position st).offset ∧
    (∀ o, o < (set_selection position st).offset →
      ¬ position + 2 < st.geom.ysize + o) := by
  refine ⟨rfl, ?_, ?_⟩
  · show position + 2 < st.geom.ysize + scroll_offset position st.geom.ysize
    unfold scroll_offset
    omega
  · intro o ho
    rw [show (set_selection position st).offset = scroll_offset position st.geom.ysize from rfl,
        scroll_offset] at ho
    omega

/-- Fixture for the C4 scenario: a 5-item collection with a 3-row window. -/
def stC4 : LState := { initView fs5 ⟨80, 3⟩ with lines := 5 }

/-- C4 counterexample: `set_selection(4)` on a 5-item collection with window
size 3 yields offset 4, not the claimed 2. -/
theorem C4_counterexample :
    (set_selection 4 stC4).offset = 4 ∧ ¬ (set_selection 4 stC4).offset = 2 := by
  constructor <;> decide

/-- Witness instantiating `C4_set_selection_minimal_offset` at position 4 on
the concrete 5-item/window-3 fixture. -/
theorem C4_witness :
    (set_selection 4 stC4).selection = 4 ∧
    4 + 2 < stC4.geom.ysize + (set_selection 4 stC4).offset :=
  ⟨(C4_set_selection_minimal_offset 4 stC4).1, (C4_set_selection_minimal_offset 4 stC4).2.1⟩

/-! ## Claim C8 -/

/-- C8 (amended): `move_up` clears seeking mode whenever the selection is
nonzero, and `move_down` clears it whenever it is not on its early-return
branch (empty cache or last index); on the early-return branches the state —
including the seeking flag — is returned unchanged. -/
theorem C8_moves_clear_seeking (st : LState) :
    (∀ st2, move_up st = some st2 → st.selection ≠ 0 → st2.seeking = false) ∧
    (st.selection = 0 → move_up st = some st) ∧
    (∀ st2, move_down st = some st2 →
      ¬(st.lines = 0 ∨ st.selection = st.lines - 1) → st2.seeking = false) ∧
    ((st.lines = 0 ∨ st.selection = st.lines - 1) → move_down st = some st) := by
  refine ⟨?_, ?_, ?_, ?_⟩
  · intro st2 hmu h0
    unfold move_up at hmu
    rw [if_neg h0] at hmu
    by_cases h1 : st.offset > st.selection
    · rw [if_pos h1] at hmu
      exact absurd hmu (by simp)
    · rw [if_neg h1] at hmu
      split at hmu <;> (injection hmu with h2; rw [← h2])
  · intro h0
    unfold move_up
    rw [if_pos h0]
  · intro st2 hmd h0
    unfold move_down at hmd
    rw [if_neg h0] at hmd
    split at hmd
    · exact absurd hmd (by simp)
    · injection hmd with h2
      rw [← h2]
  · intro h0
    unfold move_down
    rw [if_pos h0]

/-- Fixture: seeking set, selection 0 (top of the list). -/
def st8a : LState :=
  { content := fsABC, lines := 3, selection := 0, offset := 0, buffer := [],
    seeking := true, dirty := false, geom := ⟨80, 10⟩ }

/-- Fixture: seeking set, selection at the last index. -/
def st8b : LState :=
  { content := fsABC, lines := 3, selection := 2, offset := 0, buffer := [],
    seeking := true, dirty := false, geom := ⟨80, 10⟩ }

/-- C8 counterexample: with the selection at 0 (resp. at the last index) and
seeking mode set, `move_up` (resp. `move_down`) returns with the seeking flag
still true — the early-return branches do not clear it. -/
theorem C8_counterexample :
    (move_up st8a).map LState.seeking = some true ∧
    (move_down st8b).map LState.seeking = some true := by
  constructor <;> decide

/-- Fixture: seeking set, selection 1 (a state where the moves really move). -/
def st8w : LState :=
  { content := fsABC, lines := 3, selection := 1, offset := 0, buffer := [],
    seeking := true, dirty := false, geom := ⟨80, 10⟩ }

/-- Witness instantiating `C8_moves_clear_seeking` on a concrete moving state:
both moves clear the seeking flag there. -/
theorem C8_witness :
    (move_up st8w).map LState.seeking = some false ∧
    (move_down st8w).map LState.seeking = some false := by
  constructor
  · cases hmu : move_up st8w with
    | none => exact absurd hmu (by decide)
    | some s =>
      rw [Option.map_some', (C8_moves_clear_seeking st8w).1 s hmu (by decide)]
  · cases hmd : move_down st8w with
    | none => exact absurd hmd (by decide)
    | some s =>
      rw [Option.map_some', (C8_moves_clear_seeking st8w).2.2.1 s hmd (by decide)]

/-! ## Claim C2 -/

instance (st : LState) : Decidable (viewInv st) := by
  unfold viewInv
  infer_instance

instance (st : LState) : Decidable (selInv st) := by
  unfold selInv
  infer_instance

/-- C2 (amended): the viewport invariant `offset ≤ selection < offset +
window_size` is preserved by `move_up` and `move_down`, and is established by
`set_selection` provided the window has at least 3 rows (with a smaller
window `set_selection` overshoots the selection, see `C2_counterexample`). -/
theorem C2_viewport_after_moves (st : LState) :
    (∀ st2, move_up st = some st2 → viewInv st → viewInv st2) ∧
    (∀ st2, move_down st = some st2 → viewInv st → viewInv st2) ∧
    (∀ position, 3 ≤ st.geom.ysize → viewInv (set_selection position st)) := by
  refine ⟨?_, ?_, ?_⟩
  · intro st2 hmu hinv
    obtain ⟨ha, hb⟩ := hinv
    unfold move_up at hmu
    by_cases h0 : st.selection = 0
    · rw [if_pos h0] at hmu
      injection hmu with h2
      exact h2 ▸ ⟨ha, hb⟩
    · rw [if_neg h0, if_neg (by omega : ¬ st.offset > st.selection)] at hmu
      split at hmu <;>
        (injection hmu with h2; rw [← h2]; unfold viewInv; dsimp only; omega)
  · intro st2 hmd hinv
    obtain ⟨ha, hb⟩ := hinv
    unfold move_down at hmd
    by_cases h0 : st.lines = 0 ∨ st.selection = st.lines - 1
    · rw [if_pos h0] at hmd
      injection hmd with h2
      exact h2 ▸ ⟨ha, hb⟩
    · rw [if_neg h0,
          if_neg (by omega : ¬(st.selection + 1 ≥ st.geom.ysize ∧
            st.offset > st.selection + 1))] at hmd
      injection hmd with h2
      rw [← h2]
      unfold viewInv
      dsimp only
      constructor <;> (split <;> omega)
  · intro position hy
    unfold viewInv set_selection scroll_offset
    dsimp only
    omega

/-- C2 counterexample: with a 2-row window, the reachable state after a
refresh and a successful `find` (which calls `set_selection` with the
in-range position 0) violates the viewport invariant: the offset is 1 while
the selection is 0. -/
theorem C2_counterexample :
    (runOps [Op.refreshOp, Op.findKey (some "aaa")] (initView fsABC ⟨80, 2⟩)).map
      (fun s => decide (viewInv s)) = some false := by
  decide

/-- Fixture: three files, window of 3 rows. -/
def stW2 : LState := { initView fsABC ⟨80, 3⟩ with lines := 3 }

/-- Witness instantiating `C2_viewport_after_moves`: with a 3-row window,
`set_selection 1` establishes the viewport invariant. -/
theorem C2_witness : viewInv (set_selection 1 stW2) :=
  (C2_viewport_after_moves stW2).2.2 1 (by decide)

/-! ## Claim C1 -/

/-- C1 (amended): `refresh` restores `selection < length` (and `selection = 0`
for an empty filtered collection) whenever the selection overshoots by at
most one (`selection ≤ length`); `filter()` only guarantees
`selection ≤ new filtered length` — it clamps to the length itself, one past
the last index (see `C1_counterexample`); the movement operations preserve
`selection < length` when the cached line count is current. -/
theorem C1_selection_bounds (st : LState) :
    (st.selection ≤ st.content.lenF → selInv (refresh st)) ∧
    (∀ input, (filterOp input st).selection ≤ (filterOp input st).content.lenF) ∧
    (∀ st2, st.lines = st.content.lenF → st.selection < st.content.lenF →
      move_up st = some st2 → st2.selection < st2.content.lenF) ∧
    (∀ st2, st.lines = st.content.lenF → st.selection < st.content.lenF →
      move_down st = some st2 → st2.selection < st2.content.lenF) := by
  refine ⟨?_, ?_, ?_, ?_⟩
  · intro hle
    have hs := refresh_spec st
    have hlen : (refresh st).content.lenF = st.content.lenF :=
      lenF_congr hs.2.2.2.1 hs.2.2.2.2.1
    unfold selInv
    rw [hs.1, hlen]
    constructor
    · intro hpos
      split <;> omega
    · intro h0
      split <;> omega
  · intro input
    unfold filterOp
    dsimp only
    by_cases hc : st.selection > Files.lenF { st.content with filter := input }
    · rw [if_pos hc]
      exact le_rfl
    · rw [if_neg hc]
      dsimp only at hc ⊢
      omega
  · intro st2 hlines hsel hmu
    unfold move_up at hmu
    by_cases h0 : st.selection = 0
    · rw [if_pos h0] at hmu
      injection hmu with h2
      exact h2 ▸ hsel
    · rw [if_neg h0] at hmu
      by_cases h1 : st.offset > st.selection
      · rw [if_pos h1] at hmu
        exact absurd hmu (by simp)
      · rw [if_neg h1] at hmu
        split at hmu <;> (injection hmu with h2; rw [← h2]; dsimp only; omega)
  · intro st2 hlines hsel hmd
    unfold move_down at hmd
    by_cases h0 : st.lines = 0 ∨ st.selection = st.lines - 1
    · rw [if_pos h0] at hmd
      injection hmd with h2
      exact h2 ▸ hsel
    · by_cases h1 : st.selection + 1 ≥ st.geom.ysize ∧ st.offset > st.selection + 1
      · rw [if_neg h0, if_pos h1] at hmd
        exact absurd hmd (by simp)
      · rw [if_neg h0, if_neg h1] at hmd
        injection hmd with h2
        rw [← h2]
        dsimp only
        omega

/-- C1 counterexample: from a fresh three-item view, two `move_down`s (with
refreshes) and a filter matching one item reach a state with filtered length
1 and selection 1 — the selection equals the length instead of staying below
it. -/
theorem C1_counterexample :
    (runOps [Op.refreshOp, Op.moveDown, Op.refreshOp, Op.moveDown, Op.refreshOp,
             Op.filterKey (some "a")] (initView fsABC ⟨80, 10⟩)).map
      (fun s => decide (selInv s)) = some false := by
  decide

/-- Fixture: selection one past the end (out of range by one). -/
def stW1 : LState := { initView fsABC ⟨80, 10⟩ with selection := 3, lines := 3 }

/-- Witness instantiating `C1_selection_bounds`: refresh pulls an
out-by-one selection back into range, and filtering bounds the selection by
the new filtered length. -/
theorem C1_witness :
    selInv (refresh stW1) ∧
    (filterOp (some "a") stW1).selection ≤ (filterOp (some "a") stW1).content.lenF :=
  ⟨(C1_selection_bounds stW1).1 (by decide), (C1_selection_bounds stW1).2.1 (some "a")⟩

/-! ## Claim C3 -/

/-- C3 (amended): the movement operations never panic from states satisfying
the maintained viewport invariant (`offset ≤ selection`), and the dispatched
refresh, filter and find operations always complete — their failures are
status conditions, not panics; but the toggle operations
(`multi_select_file`, `toggle_tag`) complete exactly when the selection is
below both the raw item count and the render-buffer length — otherwise
`self.buffer[selection]` indexes out of bounds — and the mtime seeks can also
panic on reachable input (empty filtered or empty raw collection, narrow
windows); see `C3_counterexample`. -/
theorem C3_panic_conditions (st : LState) :
    (st.offset ≤ st.selection → (move_up st).isSome = true) ∧
    (st.offset ≤ st.selection + 1 → (move_down st).isSome = true) ∧
    ((applyOp Op.refreshOp st).isSome = true) ∧
    (∀ input, (applyOp (Op.filterKey input) st).isSome = true) ∧
    (∀ input, (applyOp (Op.findKey input) st).isSome = true) ∧
    (st.offset ≤ st.selection →
      ((multi_select_file st).isSome = true ↔
        st.selection < st.content.files.length ∧ st.selection < st.buffer.length)) ∧
    (st.offset ≤ st.selection →
      ((toggle_tag st).isSome = true ↔
        st.selection < st.content.files.length ∧ st.selection < st.buffer.length)) := by
  refine ⟨?_, ?_, rfl, fun input => rfl, ?_, ?_, ?_⟩
  case refine_3 =>
    intro input
    simp only [applyOp]
    cases hf : find_file input st <;> rfl
  · intro hoff
    obtain ⟨st2, heq, -⟩ := move_up_spec st hoff
    rw [heq]
    rfl
  · intro hoff
    obtain ⟨st2, heq, -⟩ := move_down_spec st (by omega)
    rw [heq]
    rfl
  · intro hoff
    unfold multi_select_file
    cases hget : st.content.files.get? st.selection with
    | none =>
      rw [List.get?_eq_none] at hget
      simp only [Option.isSome_none, Bool.false_eq_true, false_iff]
      omega
    | some f =>
      obtain ⟨hlt, -⟩ := List.get?_eq_some.mp hget
      dsimp only
      by_cases hbuf : st.selection < st.buffer.length
      · rw [if_pos hbuf]
        obtain ⟨st2, heq, -⟩ := move_down_spec { st with content := { st.content with files := st.content.files.set st.selection (toggleSelection f) }, buffer := st.buffer.set st.selection (render_line st.geom.xsize (toggleSelection f)) } (by dsimp only; omega)
        rw [heq]
        simp [hlt, hbuf]
      · rw [if_neg hbuf]
        simp [hbuf]
  · intro hoff
    unfold toggle_tag
    cases hget : st.content.files.get? st.selection with
    | none =>
      rw [List.get?_eq_none] at hget
      simp only [Option.isSome_none, Bool.false_eq_true, false_iff]
      omega
    | some f =>
      obtain ⟨hlt, -⟩ := List.get?_eq_some.mp hget
      dsimp only
      by_cases hbuf : st.selection < st.buffer.length
      · rw [if_pos hbuf]
        obtain ⟨st2, heq, -⟩ := move_down_spec { st with content := { st.content with files := st.content.files.set st.selection (toggleTagged f) }, buffer := st.buffer.set st.selection (render_line st.geom.xsize (toggleTagged f)) } (by dsimp only; omega)
        rw [heq]
        simp [hlt, hbuf]
      · rw [if_neg hbuf]
        simp [hbuf]

/-- C3 counterexample: reachable panics.  (1) After a filter matching nothing
and a refresh the buffer is empty, and `multi_select_file` indexes
`buffer[0]` out of bounds.  (2) From the same filtered state,
`select_prev_mtime` underflows `self.content.len() - 1` (listview.rs:267) on
the empty filtered collection.  (3) On an empty collection,
`select_next_mtime` indexes `content[0]` in `clone_selected_file`
(listview.rs:162-165). -/
theorem C3_counterexample :
    runOps [Op.refreshOp, Op.filterKey (some "zzz"), Op.refreshOp, Op.multiSelect]
      (initView fsABC ⟨80, 10⟩) = none ∧
    runOps [Op.refreshOp, Op.filterKey (some "zzz"), Op.refreshOp, Op.prevMtime]
      (initView fsABC ⟨80, 10⟩) = none ∧
    runOps [Op.refreshOp, Op.nextMtime] (initView fsEmpty ⟨80, 10⟩) = none := by
  refine ⟨rfl, rfl, rfl⟩

/-- Witness instantiating `C3_panic_conditions` on the refreshed three-item
view: movement and multi-select all complete there. -/
theorem C3_witness :
    (move_up (refresh (initView fsABC ⟨80, 10⟩))).isSome = true ∧
    (move_down (refresh (initView fsABC ⟨80, 10⟩))).isSome = true ∧
    (multi_select_file (refresh (initView fsABC ⟨80, 10⟩))).isSome = true := by
  refine ⟨(C3_panic_conditions _).1 (by decide),
          (C3_panic_conditions _).2.1 (by decide), ?_⟩
  exact ((C3_panic_conditions _).2.2.2.2.2.1 (by decide)).mpr (by decide)

/-! ## Claim C7 -/

/-- C7: `refresh` rebuilds the full buffer exactly when the dirty flag is set
(the widget's own, or propagated from the content by the refresh hook) or the
cached buffer length differs from the filtered content length, and then
clears the dirty flag; with an active filter `f` the rebuilt buffer is
exactly the rendered lines of the items whose name contains `f`, in content
order, and with no filter its length is the full item count. -/
theorem C7_refresh_rebuild (st : LState) :
    ((refresh st).buffer =
      if (st.dirty ∨ st.content.dirty) ∨ st.buffer.length ≠ st.content.lenF
      then renderF st.geom.xsize st.content else st.buffer) ∧
    ((refresh st).dirty = false) ∧
    (∀ f, st.content.filter = some f →
      renderF st.geom.xsize st.content =
        (st.content.files.filter (fun file => strContains file.name f)).map
          (render_line st.geom.xsize)) ∧
    (st.content.filter = none →
      (renderF st.geom.xsize st.content).length = st.content.files.length) := by
  obtain ⟨-, -, -, -, -, -, -, -, -, -, -, hdirty, hbuf⟩ := refresh_spec st
  refine ⟨hbuf, hdirty, ?_, ?_⟩
  · intro f hf
    unfold renderF
    rw [hf]
  · intro hf
    unfold renderF
    rw [hf]
    simp

/-- Fixture: the three-item collection with the filter "a" active. -/
def stW7 : LState := { initView { fsABC with filter := some "a" } ⟨80, 10⟩ with lines := 1 }

/-- Witness instantiating `C7_refresh_rebuild` with an active filter and with
no filter. -/
theorem C7_witness :
    renderF stW7.geom.xsize stW7.content =
      (stW7.content.files.filter (fun file => strContains file.name "a")).map
        (render_line stW7.geom.xsize) ∧
    (renderF (initView fsABC ⟨80, 10⟩).geom.xsize (initView fsABC ⟨80, 10⟩).content).length
      = (initView fsABC ⟨80, 10⟩).content.files.length :=
  ⟨(C7_refresh_rebuild stW7).2.2.1 "a" rfl,
   (C7_refresh_rebuild (initView fsABC ⟨80, 10⟩)).2.2.2 rfl⟩

/-! ## Claim C9 -/

/-- C9: toggling the selected item's multi-select flag (`multi_select_file`)
or tag (`toggle_tag`) overwrites exactly the buffer slot at the current
selection index with the re-rendered line, leaves every other slot
bit-identical (no full rebuild), and then advances the selection via
`move_down`. -/
theorem C9_toggle_patches_one_slot (st : LState) (f : FileM)
    (hget : st.content.files.get? st.selection = some f)
    (hbuf : st.selection < st.buffer.length)
    (hoff : st.offset ≤ st.selection) :
    (∃ st2, multi_select_file st = some st2 ∧
      st2.buffer.length = st.buffer.length ∧
      st2.buffer.get? st.selection = some (render_line st.geom.xsize (toggleSelection f)) ∧
      (∀ i, i ≠ st.selection → st2.buffer.get? i = st.buffer.get? i) ∧
      st2.selection = (if st.lines = 0 ∨ st.selection = st.lines - 1
                       then st.selection else st.selection + 1)) ∧
    (∃ st2, toggle_tag st = some st2 ∧
      st2.buffer.length = st.buffer.length ∧
      st2.buffer.get? st.selection = some (render_line st.geom.xsize (toggleTagged f)) ∧
      (∀ i, i ≠ st.selection → st2.buffer.get? i = st.buffer.get? i) ∧
      st2.selection = (if st.lines = 0 ∨ st.selection = st.lines - 1
                       then st.selection else st.selection + 1)) := by
  constructor
  · unfold multi_select_file
    rw [hget]
    dsimp only
    rw [if_pos hbuf]
    obtain ⟨st2, heq, hbuf2, -, -, -, hsel2, -, -, -⟩ := move_down_spec { st with content := { st.content with files := st.content.files.set st.selection (toggleSelection f) }, buffer := st.buffer.set st.selection (render_line st.geom.xsize (toggleSelection f)) } (by dsimp only; omega)
    rw [heq]
    refine ⟨st2, rfl, ?_, ?_, ?_, ?_⟩
    · rw [hbuf2]
      dsimp only
      simp
    · rw [hbuf2]
      dsimp only
      exact List.get?_set_eq_of_lt _ hbuf
    · intro i hi
      rw [hbuf2]
      dsimp only
      exact List.get?_set_ne _ _ (Ne.symm hi)
    · rw [hsel2]
  · unfold toggle_tag
    rw [hget]
    dsimp only
    rw [if_pos hbuf]
    obtain ⟨st2, heq, hbuf2, -, -, -, hsel2, -, -, -⟩ := move_down_spec { st with content := { st.content with files := st.content.files.set st.selection (toggleTagged f) }, buffer := st.buffer.set st.selection (render_line st.geom.xsize (toggleTagged f)) } (by dsimp only; omega)
    rw [heq]
    refine ⟨st2, rfl, ?_, ?_, ?_, ?_⟩
    · rw [hbuf2]
      dsimp only
      simp
    · rw [hbuf2]
      dsimp only
      exact List.get?_set_eq_of_lt _ hbuf
    · intro i hi
      rw [hbuf2]
      dsimp only
      exact List.get?_set_ne _ _ (Ne.symm hi)
    · rw [hsel2]

/-- Witness instantiating `C9_toggle_patches_one_slot` on the refreshed
three-item view: multi-select patches exactly slot 0 with the re-rendered
line of the toggled first item. -/
theorem C9_witness :
    ∃ st2, multi_select_file (refresh (initView fsABC ⟨80, 10⟩)) = some st2 ∧
      st2.buffer.get? 0 = some (render_line 80 (toggleSelection (mkFile "aaa" 30))) := by
  obtain ⟨⟨st2, heq, -, hslot, -, -⟩, -⟩ :=
    C9_toggle_patches_one_slot (refresh (initView fsABC ⟨80, 10⟩)) (mkFile "aaa" 30)
      (by decide) (by decide) (by decide)
  exact ⟨st2, heq, hslot⟩

/-! ## Claim C6 -/

theorem findItem_findIndex {p : FileM → Bool} {l : List FileM} {f : FileM}
    (h : findItem p l = some f) :
    ∃ i, findIndex p l = some i ∧ l.get? i = some f := by
  induction l with
  | nil => simp [findItem] at h
  | cons a l ih =>
    by_cases hp : p a
    · simp [findItem, hp] at h
      exact ⟨0, by simp [findIndex, hp], by simp [h]⟩
    · simp [findItem, hp] at h
      obtain ⟨i, hi, hget⟩ := ih h
      exact ⟨i + 1, by simp [findIndex, hp, hi], by simpa using hget⟩

/-- C6 (amended): `find(name)` fails with not-found exactly when no raw item
has a *lowercased name containing the query verbatim* (the query itself is
not lowercased by the code, so the match is case-insensitive only for
lowercase queries, see `C6_counterexample`); a failed find leaves the state
unchanged, and a successful one selects the first matching item via
`set_selection`. -/
theorem C6_find_file_matching (st : LState) (q : String) :
    (find_file (some q) st = none ↔
      ∀ f ∈ st.content.files, strContains (lowerString f.name) q = false) ∧
    (find_file (some q) st = none → applyOp (Op.findKey (some q)) st = some st) ∧
    (∀ st2, find_file (some q) st = some st2 →
      ∃ i f, findIndex (fun file => strContains (lowerString file.name) q)
               st.content.files = some i ∧
        st.content.files.get? i = some f ∧
        strContains (lowerString f.name) q = true ∧
        st2 = set_selection i st) := by
  refine ⟨?_, ?_, ?_⟩
  · unfold find_file
    dsimp only
    cases hfi : findItem (fun file => strContains (lowerString file.name) q)
        st.content.files with
    | none =>
      exact iff_of_true rfl (findItem_eq_none.mp hfi)
    | some f =>
      refine iff_of_false (by simp) ?_
      intro hall
      have h1 := findItem_some hfi
      have h2 := hall f h1.2
      rw [h1.1] at h2
      simp at h2
  · intro hnone
    simp only [applyOp]
    rw [hnone]
  · intro st2 h
    unfold find_file at h
    dsimp only at h
    cases hfi : findItem (fun file => strContains (lowerString file.name) q)
        st.content.files with
    | none =>
      rw [hfi] at h
      exact Option.noConfusion h
    | some f =>
      rw [hfi] at h
      injection h with h2
      obtain ⟨i, hidx, hget⟩ := findItem_findIndex hfi
      have hfirst := findItem_first hfi
      refine ⟨i, f, hidx, hget, (findItem_some hfi).1, ?_⟩
      rw [← h2]
      unfold select_file
      rw [hfirst, hidx]
      rfl

/-- Spec-words definition, for the refutation only: a case-insensitive
substring match — the lowercased name contains the lowercased query. -/
def ciMatch (q name : String) : Bool :=
  strContains (lowerString name) (lowerString q)

/-- C6 counterexample: for the query "Report" a case-insensitive substring
match exists among the raw items ("report.csv"), yet `find_file` fails with
not-found — the code lowercases the name but not the query. -/
theorem C6_counterexample :
    fsRep.files.any (fun f => ciMatch "Report" f.name) = true ∧
    find_file (some "Report") (initView fsRep ⟨80, 10⟩) = none := by
  constructor <;> rfl

/-- Witness instantiating `C6_find_file_matching`: find("zzz") fails with
not-found on the spec's example collection, and find("report") selects
index 1. -/
theorem C6_witness :
    find_file (some "zzz") (initView fsRep ⟨80, 10⟩) = none ∧
    (find_file (some "report") (initView fsRep ⟨80, 10⟩)).map LState.selection = some 1 :=
  ⟨((C6_find_file_matching (initView fsRep ⟨80, 10⟩) "zzz").1).mpr (by decide), by rfl⟩


theorem select_file_content (file : FileM) (st : LState) {i : Nat}
    (hnd : st.content.files.Nodup) (hget : st.content.files.get? i = some file) :
    select_file file st = { st with offset := scroll_offset i st.geom.ysize, selection := i } := by
  rw [select_file_eq hnd hget]
  rfl

/-! ## Claim C5 -/

theorem refresh_keeps_selection (st : LState) (hfil : st.content.filter = none)
    (hlt : st.selection < st.content.files.length) :
    (refresh st).selection = st.selection := by
  rw [(refresh_spec st).1, if_neg]
  intro hcon
  rw [lenF_none hfil] at hcon
  omega

theorem refresh_lines_none (st : LState) (hfil : st.content.filter = none) :
    (refresh st).lines = st.content.files.length := by
  rw [(refresh_spec st).2.1, lenF_none hfil]

set_option maxHeartbeats 1000000 in
theorem select_next_mtime_spec (st : LState) (x f2 : FileM) (p q : Nat)
    (hnd : st.content.files.Nodup)
    (hfil : st.content.filter = none)
    (hget : st.content.files.get? st.selection = some x)
    (hlines : st.lines = st.content.files.length)
    (hseek : st.seeking = true)
    (hy : 3 ≤ st.geom.ysize)
    (hcanon : sortLe (fileLe st.content.sort st.content.dirs_first st.content.reverse)
        (sortLe (fileLe SortBy.mtime false st.content.reverse) st.content.files)
      = st.content.files)
    (hp : (sortLe (fileLe SortBy.mtime false st.content.reverse) st.content.files).get? p
          = some x)
    (hb : p + 1 < st.content.files.length)
    (hf2 : (sortLe (fileLe SortBy.mtime false st.content.reverse) st.content.files).get? (p + 1)
           = some f2)
    (hq : st.content.files.get? q = some f2) :
    ∃ st2, select_next_mtime st = some st2 ∧
      st2.content.files = st.content.files ∧
      st2.content.sort = st.content.sort ∧
      st2.content.dirs_first = st.content.dirs_first ∧
      st2.content.reverse = st.content.reverse ∧
      st2.content.filter = st.content.filter ∧
      st2.selection = q ∧
      st2.seeking = true ∧
      st2.lines = st.content.files.length ∧
      st2.geom = st.geom := by
  have hmnd : (sortLe (fileLe SortBy.mtime false st.content.reverse) st.content.files).Nodup :=
    sortLe_nodup hnd
  have hmlen : (sortLe (fileLe SortBy.mtime false st.content.reverse) st.content.files).length
      = st.content.files.length := sortLe_length _ _
  obtain ⟨hqlt, -⟩ := List.get?_eq_some.mp hq
  unfold select_next_mtime
  have hclone : clone_selected_file st = some x := hget
  rw [hclone]
  dsimp only
  unfold Files.applySort
  dsimp only
  rw [select_file_content x { content := { files := sortLe (fileLe SortBy.mtime false st.content.reverse) st.content.files, sort := SortBy.mtime, dirs_first := false, reverse := st.content.reverse, filter := st.content.filter, dirty := st.content.dirty }, lines := st.lines, selection := st.selection, offset := st.offset, buffer := st.buffer, seeking := st.seeking, dirty := st.dirty, geom := st.geom } hmnd hp]
  dsimp only
  have hlenc : Files.lenF { files := sortLe (fileLe SortBy.mtime false st.content.reverse) st.content.files, sort := SortBy.mtime, dirs_first := false, reverse := st.content.reverse, filter := st.content.filter, dirty := st.content.dirty } = st.content.files.length := by
    rw [lenF_none]
    · exact hmlen
    · exact hfil
  have hcond : ¬(st.seeking = false ∨ p + 1 = Files.lenF { files := sortLe (fileLe SortBy.mtime false st.content.reverse) st.content.files, sort := SortBy.mtime, dirs_first := false, reverse := st.content.reverse, filter := st.content.filter, dirty := st.content.dirty }) := by
    rw [hseek, hlenc]
    rintro (hc | hc)
    · exact Bool.noConfusion hc
    · omega
  rw [if_neg hcond]
  obtain ⟨st3, hmd, hbuf3, hcont3, hlines3, hgeom3, hsel3, hseek3, -, -⟩ :=
    move_down_spec { content := { files := sortLe (fileLe SortBy.mtime false st.content.reverse) st.content.files, sort := SortBy.mtime, dirs_first := false, reverse := st.content.reverse, filter := st.content.filter, dirty := st.content.dirty }, lines := st.lines, selection := p, offset := scroll_offset p st.geom.ysize, buffer := st.buffer, seeking := st.seeking, dirty := st.dirty, geom := st.geom } (by dsimp only; unfold scroll_offset; omega)
  rw [hmd]
  dsimp only
  have hsel3q : st3.selection = p + 1 := by
    rw [hsel3]
    dsimp only
    rw [if_neg]
    omega
  have hclone3 : clone_selected_file st3 = some f2 := by
    unfold clone_selected_file
    rw [hcont3, hsel3q]
    dsimp only
    exact hf2
  rw [hclone3]
  dsimp only
  rw [hcont3, hgeom3]
  dsimp only
  rw [hcanon]
  rw [select_file_content f2 { content := { files := st.content.files, sort := st.content.sort, dirs_first := st.content.dirs_first, reverse := st.content.reverse, filter := st.content.filter, dirty := st.content.dirty }, lines := st3.lines, selection := st3.selection, offset := st3.offset, buffer := st3.buffer, seeking := st3.seeking, dirty := st3.dirty, geom := st.geom } hnd hq]
  dsimp only
  refine ⟨_, rfl, ?_, ?_, ?_, ?_, ?_, ?_, ?_, ?_, ?_⟩
  · exact (refresh_spec _).2.2.2.1
  · exact (refresh_spec _).2.2.2.2.2.1
  · exact (refresh_spec _).2.2.2.2.2.2.1
  · exact (refresh_spec _).2.2.2.2.2.2.2.1
  · exact (refresh_spec _).2.2.2.2.1
  · exact (refresh_keeps_selection _ (by exact hfil) (by exact hqlt)).trans rfl
  · exact (refresh_spec _).2.2.2.2.2.2.2.2.2.1
  · exact refresh_lines_none _ (by exact hfil)
  · exact (refresh_spec _).2.2.2.2.2.2.2.2.2.2.1


set_option maxHeartbeats 1000000 in
theorem select_prev_mtime_spec (st : LState) (x f2 : FileM) (p s0 : Nat)
    (hnd : st.content.files.Nodup)
    (hfil : st.content.filter = none)
    (hget2 : st.content.files.get? st.selection = some f2)
    (hseek : st.seeking = true)
    (hy : 3 ≤ st.geom.ysize)
    (hcanon : sortLe (fileLe st.content.sort st.content.dirs_first st.content.reverse)
        (sortLe (fileLe SortBy.mtime false st.content.reverse) st.content.files)
      = st.content.files)
    (hpm1 : (sortLe (fileLe SortBy.mtime false st.content.reverse) st.content.files).get? (p + 1)
            = some f2)
    (hxm : (sortLe (fileLe SortBy.mtime false st.content.reverse) st.content.files).get? p
           = some x)
    (hs0 : st.content.files.get? s0 = some x) :
    ∃ st2, select_prev_mtime st = some st2 ∧
      st2.content.files = st.content.files ∧
      st2.selection = s0 ∧
      st2.seeking = true := by
  have hmnd : (sortLe (fileLe SortBy.mtime false st.content.reverse) st.content.files).Nodup :=
    sortLe_nodup hnd
  obtain ⟨hs0lt, -⟩ := List.get?_eq_some.mp hs0
  unfold select_prev_mtime
  have hclone : clone_selected_file st = some f2 := hget2
  rw [hclone]
  dsimp only
  unfold Files.applySort
  dsimp only
  rw [select_file_content f2 { content := { files := sortLe (fileLe SortBy.mtime false st.content.reverse) st.content.files, sort := SortBy.mtime, dirs_first := false, reverse := st.content.reverse, filter := st.content.filter, dirty := st.content.dirty }, lines := st.lines, selection := st.selection, offset := st.offset, buffer := st.buffer, seeking := st.seeking, dirty := st.dirty, geom := st.geom } hmnd hpm1]
  dsimp only
  have hcond : ¬(st.seeking = false ∨ p + 1 = 0) := by
    rw [hseek]
    rintro (hc | hc)
    · exact Bool.noConfusion hc
    · omega
  rw [if_neg hcond]
  obtain ⟨st3, hmu, hbuf3, hcont3, hlines3, hgeom3, hsel3, hseek3, -⟩ :=
    move_up_spec { content := { files := sortLe (fileLe SortBy.mtime false st.content.reverse) st.content.files, sort := SortBy.mtime, dirs_first := false, reverse := st.content.reverse, filter := st.content.filter, dirty := st.content.dirty }, lines := st.lines, selection := p + 1, offset := scroll_offset (p + 1) st.geom.ysize, buffer := st.buffer, seeking := st.seeking, dirty := st.dirty, geom := st.geom } (by dsimp only; unfold scroll_offset; omega)
  rw [hmu]
  dsimp only
  have hsel3p : st3.selection = p := by
    rw [hsel3]
    dsimp only
    omega
  have hclone3 : clone_selected_file st3 = some x := by
    unfold clone_selected_file
    rw [hcont3, hsel3p]
    dsimp only
    exact hxm
  rw [hclone3]
  dsimp only
  rw [hcont3, hgeom3]
  dsimp only
  rw [hcanon]
  rw [select_file_content x { content := { files := st.content.files, sort := st.content.sort, dirs_first := st.content.dirs_first, reverse := st.content.reverse, filter := st.content.filter, dirty := st.content.dirty }, lines := st3.lines, selection := st3.selection, offset := st3.offset, buffer := st3.buffer, seeking := st3.seeking, dirty := st3.dirty, geom := st.geom } hnd hs0]
  dsimp only
  refine ⟨_, rfl, ?_, ?_, ?_⟩
  · exact (refresh_spec _).2.2.2.1
  · exact (refresh_keeps_selection _ (by exact hfil) (by exact hs0lt)).trans rfl
  · exact (refresh_spec _).2.2.2.2.2.2.2.2.2.1


/-- C5 (amended): in seeking mode, with a window of at least 3 rows, no
active filter, duplicate-free items, a current line cache, the collection
canonically sorted (re-sorting after the mtime detour restores it:
`hcanon`), and neither call hitting a boundary of the temporary
modification-time order, `select_next_mtime` followed by
`select_prev_mtime` returns the selection to the item — and index —
selected before the first call.  Without the window bound the roundtrip can
instead panic (see `C5_counterexample`). -/
theorem C5_mtime_roundtrip (st : LState) (x : FileM) (p : Nat)
    (hnd : st.content.files.Nodup)
    (hfil : st.content.filter = none)
    (hget : st.content.files.get? st.selection = some x)
    (hlines : st.lines = st.content.files.length)
    (hseek : st.seeking = true)
    (hy : 3 ≤ st.geom.ysize)
    (hcanon : sortLe (fileLe st.content.sort st.content.dirs_first st.content.reverse)
        (sortLe (fileLe SortBy.mtime false st.content.reverse) st.content.files)
      = st.content.files)
    (hp : (sortLe (fileLe SortBy.mtime false st.content.reverse) st.content.files).get? p
          = some x)
    (hb : p + 1 < st.content.files.length) :
    ∃ st2, (select_next_mtime st).bind select_prev_mtime = some st2 ∧
      st2.content.files = st.content.files ∧
      st2.selection = st.selection := by
  have hmlen : (sortLe (fileLe SortBy.mtime false st.content.reverse) st.content.files).length
      = st.content.files.length := sortLe_length _ _
  have hb2 : p + 1 < (sortLe (fileLe SortBy.mtime false st.content.reverse)
      st.content.files).length := by
    rw [hmlen]
    exact hb
  obtain ⟨f2, hf2⟩ : ∃ f2, (sortLe (fileLe SortBy.mtime false st.content.reverse)
      st.content.files).get? (p + 1) = some f2 := ⟨_, List.get?_eq_get hb2⟩
  have hf2mem : f2 ∈ st.content.files := sortLe_mem.mp (List.get?_mem hf2)
  obtain ⟨q, hq⟩ := List.mem_iff_get?.mp hf2mem
  obtain ⟨st5, hnext, hfiles5, hsort5, hdirs5, hrev5, hfil5, hsel5, hseek5, hlines5, hgeom5⟩ :=
    select_next_mtime_spec st x f2 p q hnd hfil hget hlines hseek hy hcanon hp hb hf2 hq
  rw [hnext]
  dsimp only [Option.bind]
  obtain ⟨st6, hprev, hfiles6, hsel6, hseek6⟩ :=
    select_prev_mtime_spec st5 x f2 p st.selection
      (by rw [hfiles5]; exact hnd)
      (by rw [hfil5]; exact hfil)
      (by rw [hfiles5, hsel5]; exact hq)
      hseek5
      (by rw [hgeom5]; exact hy)
      (by rw [hsort5, hdirs5, hrev5, hfiles5]; exact hcanon)
      (by rw [hrev5, hfiles5]; exact hf2)
      (by rw [hrev5, hfiles5]; exact hp)
      (by rw [hfiles5]; exact hget)
  exact ⟨st6, hprev, by rw [hfiles6, hfiles5], hsel6⟩


/-- Fixture: three name-sorted files with shuffled mtimes, selection on
"bbb" (the oldest item, mtime index 0), seeking already set. -/
def stW5 : LState :=
  { content := fsABC, lines := 3, selection := 1, offset := 0, buffer := [],
    seeking := true, dirty := false, geom := ⟨80, 10⟩ }

/-- Witness instantiating `C5_mtime_roundtrip` on the concrete fixture. -/
theorem C5_witness :
    ∃ st2, (select_next_mtime stW5).bind select_prev_mtime = some st2 ∧
      st2.content.files = stW5.content.files ∧ st2.selection = stW5.selection :=
  C5_mtime_roundtrip stW5 (mkFile "bbb" 10) 0 (by decide) (by decide) (by decide)
    (by decide) (by decide) (by decide) (by decide) (by decide) (by decide)

/-- C5 counterexample: with a 2-row window, [refresh, next-mtime] reaches a
state with seeking mode set (selection 1 on "bbb", offset 2); applying
`select_next_mtime` then `select_prev_mtime` from there hits no boundary of
the temporary mtime order (next steps from mtime index 0 to 1 of 3, prev
would step back from 1), yet the pair panics instead of restoring the
selection: prev relocates via `set_selection`, leaving offset 2 above
selection 1, and `move_up` underflows `self.selection - self.offset`
(listview.rs:106). -/
theorem C5_counterexample :
    (runOps [Op.refreshOp, Op.nextMtime] (initView fsABC ⟨80, 2⟩)).map LState.seeking
      = some true ∧
    (runOps [Op.refreshOp, Op.nextMtime] (initView fsABC ⟨80, 2⟩)).bind
      (fun s => (select_next_mtime s).bind select_prev_mtime) = none := by
  refine ⟨rfl, rfl⟩
